import Mathlib

/-!
Verification of the weather dashboard core (`src/lib/data_sources.py`,
`src/lib/geoutils.py`, `src/pages/4_Models_&_Alerts.py`) against its
specification. Machine floats are modelled as rationals; pandas missing
values (NaN / absent cells) are modelled as `Option` with `none` for a
missing value; a pandas time-indexed frame is modelled as an explicit
list of rows or as an index list together with a cell-valuation function.
-/

namespace Weather

/-! ### Growing degree days (`compute_gdd`, data_sources.py lines 114-122) -/

/-- Embeds one day of `compute_gdd`: with both extremes present,
`tmax` is first clipped to the optional upper cap (`tmax.clip(upper=cap_c)`,
i.e. `min tmax cap`), then `tmean = (tmin + tmax) / 2` and
`gdd = (tmean - base_c).clip(lower=0)`, i.e. `max 0 (tmean - base_c)`.
If `tmin` or `tmax` is NaN for the day, every arithmetic step propagates
NaN and the clip keeps it, so the day has no GDD value (`none`). -/
def gdd_day (tmin tmax : Option ℚ) (base_c : ℚ) (cap_c : Option ℚ) : Option ℚ :=
  match tmin, tmax with
  | some a, some b =>
      let b2 := match cap_c with
        | some c => min b c
        | none => b
      some (max 0 ((a + b2) / 2 - base_c))
  | _, _ => none

/-- Embeds `compute_gdd` on a daily series given as a list of
(`tmin`, `tmax`) cells: the elementwise series of daily GDD values. -/
def compute_gdd (days : List (Option ℚ × Option ℚ)) (base_c : ℚ) (cap_c : Option ℚ) :
    List (Option ℚ) :=
  days.map (fun r => gdd_day r.1 r.2 base_c cap_c)

/-- Embeds the season total `gdd.sum()` (pages/4_Models_&_Alerts.py line 74):
pandas `sum` skips missing values, so only the defined daily values are summed. -/
def season_gdd_total (g : List (Option ℚ)) : ℚ :=
  (g.filterMap id).sum

/-! ### Drought proxy flags (`drought_proxy_flags`, data_sources.py lines 176-180) -/

/-- Embeds one row of `drought_proxy_flags`: `(pt < 30.0) & (dd > 20)`,
where a missing `precip_total` or `dry_days` column defaults to zero
(the `monthly_df.get(..., Series of zeros)` fallback). -/
def drought_flag (pt dd : Option ℚ) : Bool :=
  (if pt.getD 0 < 30 then true else false) && (if (20 : ℚ) < dd.getD 0 then true else false)

/-- Embeds `drought_proxy_flags` over a monthly table given as a list of
(`precip_total`, `dry_days`) rows. -/
def drought_proxy_flags (rows : List (Option ℚ × Option ℚ)) : List Bool :=
  rows.map (fun r => drought_flag r.1 r.2)

/-! ### Heat-day counting and the alert trigger
(`count_heat_days_in_month`, data_sources.py lines 168-174, and the
trigger comparison in pages/4_Models_&_Alerts.py lines 167-173) -/

/-- Calendar date of a daily-frame index entry. -/
structure Day where
  year : ℕ
  month : ℕ
  day : ℕ
deriving DecidableEq, Repr

/-- Embeds `count_heat_days_in_month`: restrict the frame to rows whose
index month equals `month` (`df[df.index.month == month]`, any year), then
count the rows whose `tmax` cell satisfies `tmax >= threshold_c`
(`(sel[tmax.name] >= threshold_c).sum()`; a NaN cell compares false and
is not counted). Rows carry (date, tmax). -/
def count_heat_days_in_month (rows : List (Day × Option ℚ)) (month : ℕ)
    (threshold_c : ℚ) : ℕ :=
  (rows.filter (fun r => r.1.month = month)).countP
    (fun r => match r.2 with
      | some v => if threshold_c ≤ v then true else false
      | none => false)

/-- Embeds the alert trigger of pages/4_Models_&_Alerts.py line 170:
`count >= int(heat_count_thresh)`. -/
def heat_alert_triggered (rows : List (Day × Option ℚ)) (month : ℕ)
    (threshold_c : ℚ) (min_count : ℕ) : Bool :=
  if min_count ≤ count_heat_days_in_month rows month threshold_c then true else false

/-- Concrete July series of the heat-day example: five July days with max
temperatures 36, 34, 37, 33, 35 and one (hot) June day that must not be
counted for July. -/
def july_example : List (Day × Option ℚ) :=
  [(⟨2024, 6, 30⟩, some 40),
   (⟨2024, 7, 1⟩, some 36),
   (⟨2024, 7, 2⟩, some 34),
   (⟨2024, 7, 3⟩, some 37),
   (⟨2024, 7, 4⟩, some 33),
   (⟨2024, 7, 5⟩, some 35)]

/-! ### Theorems for claims C1, C5, C7, C8 -/

/-- C1: for every daily record with defined `tmin` and `tmax`, `compute_gdd`
with base `b` and cap `c` yields `max 0 ((tmin + min tmax c) / 2 - b)` — the
cap is applied to `tmax` before the mean is taken, not to the final GDD; in
particular `tmin = 10`, `tmax = 40`, `base = 10`, `cap = 35` gives GDD
`25/2 = 12.5`. -/
theorem gdd_cap_applied_before_mean :
    (∀ a b base c : ℚ,
      gdd_day (some a) (some b) base (some c) = some (max 0 ((a + min b c) / 2 - base)))
    ∧ gdd_day (some 10) (some 40) 10 (some 35) = some (25 / 2) := by
  constructor
  · intro a b base c
    rfl
  · show some (max 0 ((10 + min (40 : ℚ) 35) / 2 - 10)) = some (25 / 2)
    norm_num [min_def]

/-- C5: every defined daily GDD value is nonnegative; a day with missing
`tmin` or `tmax` gets no GDD value at all (`none`, not zero); and the season
total therefore does not change when such an undefined day is inserted —
it sums only the defined daily values. -/
theorem gdd_nonneg_and_missing_undefined :
    (∀ (tmin tmax : Option ℚ) (base : ℚ) (cap : Option ℚ) (g : ℚ),
        gdd_day tmin tmax base cap = some g → 0 ≤ g)
    ∧ (∀ (tmax : Option ℚ) (base : ℚ) (cap : Option ℚ),
        gdd_day none tmax base cap = none)
    ∧ (∀ (tmin : Option ℚ) (base : ℚ) (cap : Option ℚ),
        gdd_day tmin none base cap = none)
    ∧ (∀ (pre post : List (Option ℚ × Option ℚ)) (tmn tmx : Option ℚ)
        (base : ℚ) (cap : Option ℚ), tmn = none ∨ tmx = none →
        season_gdd_total (compute_gdd (pre ++ (tmn, tmx) :: post) base cap)
          = season_gdd_total (compute_gdd (pre ++ post) base cap)) := by
  refine ⟨?_, ?_, ?_, ?_⟩
  · intro tmin tmax base cap g hg
    match tmin, tmax with
    | some a, some b =>
        simp only [gdd_day] at hg
        obtain rfl : max 0 ((a + _) / 2 - base) = g := Option.some.inj hg
        exact le_max_left 0 _
    | none, _ => simp [gdd_day] at hg
    | some _, none => simp [gdd_day] at hg
  · intro tmax base cap
    rfl
  · intro tmin base cap
    match tmin with
    | none => rfl
    | some _ => rfl
  · intro pre post tmn tmx base cap h
    have hnone : gdd_day tmn tmx base cap = none := by
      rcases h with h | h
      · subst h; rfl
      · subst h
        match tmn with
        | none => rfl
        | some _ => rfl
    simp [compute_gdd, season_gdd_total, List.filterMap_append, hnone]

/-- Witness for C5: instantiates the nonnegativity part at the concrete
GDD value of the capping example and the insertion part at a one-day series
with a missing `tmin`. -/
theorem gdd_nonneg_witness :
    gdd_day (some 10) (some 40) 10 (some 35) = some (25 / 2)
    ∧ (0 : ℚ) ≤ 25 / 2
    ∧ season_gdd_total (compute_gdd [(none, some 30)] 10 none)
        = season_gdd_total (compute_gdd [] 10 none) := by
  have h : gdd_day (some 10) (some 40) 10 (some 35) = some (25 / 2) := by
    show some (max 0 ((10 + min (40 : ℚ) 35) / 2 - 10)) = some (25 / 2)
    norm_num [min_def]
  refine ⟨h, gdd_nonneg_and_missing_undefined.1 _ _ _ _ _ h, ?_⟩
  exact gdd_nonneg_and_missing_undefined.2.2.2 [] [] none (some 30) 10 none (Or.inl rfl)

/-- C7: a month is flagged drought-like exactly when its precipitation total
is strictly below 30 mm and its dry-day count strictly exceeds 20; in
particular (20 mm, 25 days) is flagged and (50 mm, 25 days) is not. -/
theorem drought_flag_iff :
    (∀ pt dd : ℚ, drought_flag (some pt) (some dd) = true ↔ pt < 30 ∧ 20 < dd)
    ∧ drought_flag (some 20) (some 25) = true
    ∧ drought_flag (some 50) (some 25) = false := by
  refine ⟨?_, ?_, ?_⟩
  · intro pt dd
    simp [drought_flag]
  · norm_num [drought_flag]
  · norm_num [drought_flag]

/-- C8: the heat-day rule counts exactly the rows whose date falls in the
chosen month (any year) and whose max temperature is at least the threshold;
the alert fires exactly when that count reaches the minimum; and on the July
example [36, 34, 37, 33, 35] with threshold 35 the count is 3, so the rule
fires for minimum 3 and not for minimum 4. -/
theorem heat_day_rule :
    (∀ (rows : List (Day × Option ℚ)) (month : ℕ) (thr : ℚ),
      count_heat_days_in_month rows month thr
        = (rows.filter (fun r =>
            (if r.1.month = month then true else false)
            && (match r.2 with
                | some v => if thr ≤ v then true else false
                | none => false))).length)
    ∧ (∀ (rows : List (Day × Option ℚ)) (month : ℕ) (thr : ℚ) (k : ℕ),
        heat_alert_triggered rows month thr k = true
          ↔ k ≤ count_heat_days_in_month rows month thr)
    ∧ count_heat_days_in_month july_example 7 35 = 3
    ∧ heat_alert_triggered july_example 7 35 3 = true
    ∧ heat_alert_triggered july_example 7 35 4 = false := by
  refine ⟨?_, ?_, ?_, ?_, ?_⟩
  · intro rows month thr
    rw [count_heat_days_in_month, List.countP_filter, List.countP_eq_length_filter]
    have hpt : ∀ r : Day × Option ℚ,
        ((match r.2 with
          | some v => if thr ≤ v then true else false
          | none => false) && decide (r.1.month = month))
        = ((if r.1.month = month then true else false)
            && (match r.2 with
                | some v => if thr ≤ v then true else false
                | none => false)) := by
      intro r
      rcases r with ⟨d, v⟩
      rcases v with _ | v <;> simp [Bool.and_comm]
    simp only [hpt]
  · intro rows month thr k
    simp [heat_alert_triggered]
  · norm_num [count_heat_days_in_month, july_example, List.filter, List.countP,
      List.countP.go]
  · have h : count_heat_days_in_month july_example 7 35 = 3 := by
      norm_num [count_heat_days_in_month, july_example, List.filter, List.countP,
        List.countP.go]
    simp [heat_alert_triggered, h]
  · have h : count_heat_days_in_month july_example 7 35 = 3 := by
      norm_num [count_heat_days_in_month, july_example, List.filter, List.countP,
        List.countP.go]
    simp [heat_alert_triggered, h]

/-! ### Field store (`geoutils.py` lines 53-74)

`load_orchards` / `save_orchards` read and write the persisted name-to-polygon
mapping as one JSON document; `delete_orchard` and `rename_orchard` are
load - transform - save. We model the persisted mapping itself as an
association list with Python-dict semantics (unique keys, insertion order,
`d[k] = v` updates an existing key in place and otherwise appends), and the
two operations as its transformations; the value type is abstract. -/

/-- Embeds the Python dict assignment `data[k] = v`: update in place when the
key exists, otherwise append at the end. -/
def dict_set {G : Type} (m : List (String × G)) (k : String) (v : G) :
    List (String × G) :=
  if k ∈ m.map Prod.fst then m.map (fun p => if p.1 = k then (k, v) else p)
  else m ++ [(k, v)]

/-- Embeds `delete_orchard`: `if name in data: del data[name]; save_orchards(data)`.
When the name is absent nothing is deleted and nothing is saved, so the
persisted mapping is returned unchanged. -/
def delete_orchard {G : Type} (m : List (String × G)) (name : String) :
    List (String × G) :=
  if name ∈ m.map Prod.fst then m.filter (fun p => p.1 ≠ name) else m

/-- Embeds `rename_orchard`: `if old in data: data[new] = data.pop(old);
save_orchards(data)`. `pop` removes the old entry and returns its value,
then the assignment stores that value under `new` (overwriting any entry
already keyed `new`). When `old` is absent the mapping is unchanged. -/
def rename_orchard {G : Type} (m : List (String × G)) (old new_ : String) :
    List (String × G) :=
  match m.lookup old with
  | some g => dict_set (m.filter (fun p => p.1 ≠ old)) new_ g
  | none => m

/-- Lookup at the head key of a cons cell yields the head value. -/
theorem lookup_cons_self {G : Type} (q : String) (w : G) (rest : List (String × G)) :
    ((q, w) :: rest).lookup q = some w := by
  simp [List.lookup]

/-- Lookup skips a cons cell with a different key. -/
theorem lookup_cons_ne {G : Type} (q : String) (w : G) (rest : List (String × G))
    (k : String) (h : k ≠ q) : ((q, w) :: rest).lookup k = rest.lookup k := by
  have hb : (k == q) = false := beq_eq_false_iff_ne.mpr h
  simp [List.lookup, hb]

/-- Looking up a key that occurs in no pair of the list yields nothing. -/
theorem lookup_eq_none_of_not_mem {G : Type} (m : List (String × G)) (k : String)
    (h : k ∉ m.map Prod.fst) : m.lookup k = none := by
  induction m with
  | nil => rfl
  | cons p rest ih =>
      rcases p with ⟨q, w⟩
      simp only [List.map_cons, List.mem_cons] at h
      push_neg at h
      rw [lookup_cons_ne q w rest k h.1]
      exact ih h.2

/-- Filtering out the pairs keyed `a` does not change lookup of any other key. -/
theorem lookup_filter_ne {G : Type} (m : List (String × G)) (a k : String)
    (h : k ≠ a) : (m.filter (fun p => p.1 ≠ a)).lookup k = m.lookup k := by
  induction m with
  | nil => rfl
  | cons p rest ih =>
      rcases p with ⟨q, w⟩
      by_cases ha : q = a
      · have hk : k ≠ q := fun hc => h (hc.trans ha)
        have hstep : List.filter (fun p : String × G => decide (p.1 ≠ a)) ((q, w) :: rest)
            = List.filter (fun p : String × G => decide (p.1 ≠ a)) rest := by
          simp [List.filter_cons, ha]
        rw [hstep, ih, lookup_cons_ne q w rest k hk]
      · have hstep : List.filter (fun p : String × G => decide (p.1 ≠ a)) ((q, w) :: rest)
            = (q, w) :: List.filter (fun p : String × G => decide (p.1 ≠ a)) rest := by
          simp [List.filter_cons, ha]
        rw [hstep]
        by_cases hk : k = q
        · subst hk
          rw [lookup_cons_self, lookup_cons_self]
        · rw [lookup_cons_ne q w _ k hk, lookup_cons_ne q w rest k hk]
          exact ih

/-- After filtering out the pairs keyed `a`, lookup of `a` yields nothing. -/
theorem lookup_filter_self {G : Type} (m : List (String × G)) (a : String) :
    (m.filter (fun p => p.1 ≠ a)).lookup a = none := by
  induction m with
  | nil => rfl
  | cons p rest ih =>
      rcases p with ⟨q, w⟩
      by_cases ha : q = a
      · have hstep : List.filter (fun p : String × G => decide (p.1 ≠ a)) ((q, w) :: rest)
            = List.filter (fun p : String × G => decide (p.1 ≠ a)) rest := by
          simp [List.filter_cons, ha]
        rw [hstep]
        exact ih
      · have hstep : List.filter (fun p : String × G => decide (p.1 ≠ a)) ((q, w) :: rest)
            = (q, w) :: List.filter (fun p : String × G => decide (p.1 ≠ a)) rest := by
          simp [List.filter_cons, ha]
        rw [hstep]
        have hne : a ≠ q := fun hc => ha hc.symm
        rw [lookup_cons_ne q w _ a hne]
        exact ih

/-- Lookup in an appended list scans the left part first. -/
theorem lookup_append {G : Type} (m l : List (String × G)) (k : String) :
    (m ++ l).lookup k = match m.lookup k with
      | some v => some v
      | none => l.lookup k := by
  induction m with
  | nil => rfl
  | cons p rest ih =>
      rcases p with ⟨q, w⟩
      by_cases hk : k = q
      · subst hk
        rw [List.cons_append, lookup_cons_self, lookup_cons_self]
      · rw [List.cons_append, lookup_cons_ne q w _ k hk, lookup_cons_ne q w rest k hk]
        exact ih

/-- The dict assignment stores the given value under the given key. -/
theorem lookup_dict_set_self {G : Type} (m : List (String × G)) (k : String) (v : G) :
    (dict_set m k v).lookup k = some v := by
  rw [dict_set]
  by_cases hmem : k ∈ m.map Prod.fst
  · rw [if_pos hmem]
    induction m with
    | nil => simp at hmem
    | cons p rest ih =>
        rcases p with ⟨q, w⟩
        rw [List.map_cons]
        by_cases hk : q = k
        · have : (if (q, w).1 = k then (k, v) else (q, w)) = (k, v) := by
            simp [hk]
          rw [this, lookup_cons_self]
        · have : (if (q, w).1 = k then (k, v) else (q, w)) = (q, w) := by
            simp [hk]
          rw [this]
          have hne : k ≠ q := fun hc => hk hc.symm
          rw [lookup_cons_ne q w _ k hne]
          simp only [List.map_cons, List.mem_cons] at hmem
          rcases hmem with hmem | hmem
          · exact absurd hmem hne
          · exact ih hmem
  · rw [if_neg hmem, lookup_append, lookup_eq_none_of_not_mem m k hmem,
      lookup_cons_self]

/-- The dict assignment does not change lookup of any other key. -/
theorem lookup_dict_set_ne {G : Type} (m : List (String × G)) (a k : String) (v : G)
    (h : k ≠ a) : (dict_set m a v).lookup k = m.lookup k := by
  rw [dict_set]
  by_cases hmem : a ∈ m.map Prod.fst
  · rw [if_pos hmem]
    induction m with
    | nil => rfl
    | cons p rest ih =>
        rcases p with ⟨q, w⟩
        rw [List.map_cons]
        by_cases hq : q = a
        · have : (if (q, w).1 = a then (a, v) else (q, w)) = (a, v) := by
            simp [hq]
          rw [this, lookup_cons_ne a v _ k h]
          have hkq : k ≠ q := fun hc => h (hc.trans hq)
          rw [lookup_cons_ne q w rest k hkq]
          by_cases hmem2 : a ∈ rest.map Prod.fst
          · exact ih hmem2
          · have hmap : (rest.map fun p => if p.1 = a then (a, v) else p) = rest := by
              conv_rhs => rw [← List.map_id rest]
              apply List.map_congr_left
              intro x hx
              have hxa : x.1 ≠ a := fun hcontra =>
                hmem2 (hcontra ▸ List.mem_map_of_mem Prod.fst hx)
              simp [hxa]
            rw [hmap]
        · have : (if (q, w).1 = a then (a, v) else (q, w)) = (q, w) := by
            simp [hq]
          rw [this]
          by_cases hk : k = q
          · subst hk
            rw [lookup_cons_self, lookup_cons_self]
          · rw [lookup_cons_ne q w _ k hk, lookup_cons_ne q w rest k hk]
            simp only [List.map_cons, List.mem_cons] at hmem
            rcases hmem with hmem | hmem
            · exact absurd hmem.symm hq
            · exact ih hmem
  · rw [if_neg hmem, lookup_append]
    cases hlk : m.lookup k with
    | some w => rfl
    | none =>
        have hb : k ≠ a := h
        rw [lookup_cons_ne a v [] k hb]
        rfl

/-- C10 counterexample: renaming key `a` to key `b` in a two-entry mapping
holding 1 at key `a` and 2 at key `b` overwrites the entry keyed `b` — an
entry other than the renamed one changes, so rename does not affect only
the named entry. -/
theorem rename_orchard_overwrites_other_entry :
    ("b" : String) ≠ "a"
    ∧ ([(("a" : String), (1 : ℕ)), ("b", 2)].lookup ("b")) = some 2
    ∧ ((rename_orchard [(("a" : String), (1 : ℕ)), ("b", 2)] ("a") ("b")).lookup ("b"))
        = some 1 := by
  refine ⟨by decide, by decide, ?_⟩
  decide

/-- C10 amended: for a name absent from the persisted mapping, delete and
rename return the mapping unchanged (and, being total functions, raise no
error). For a present name, delete removes exactly that entry; rename
removes the old entry, stores its value under the new name, and leaves
every entry other than the old and the new name unchanged — the entry
already stored under the new name, if any, is overwritten. -/
theorem orchard_ops_frame :
    (∀ (m : List (String × ℕ)) (name : String),
      name ∉ m.map Prod.fst → delete_orchard m name = m)
    ∧ (∀ (m : List (String × ℕ)) (old new_ : String),
      old ∉ m.map Prod.fst → rename_orchard m old new_ = m)
    ∧ (∀ (m : List (String × ℕ)) (name k : String),
      k ≠ name → (delete_orchard m name).lookup k = m.lookup k)
    ∧ (∀ (m : List (String × ℕ)) (name : String),
      (delete_orchard m name).lookup name = none)
    ∧ (∀ (m : List (String × ℕ)) (old new_ k : String),
      k ≠ old → k ≠ new_ →
      (rename_orchard m old new_).lookup k = m.lookup k)
    ∧ (∀ (m : List (String × ℕ)) (old new_ : String) (g : ℕ),
      m.lookup old = some g → (rename_orchard m old new_).lookup new_ = some g)
    ∧ (∀ (m : List (String × ℕ)) (old new_ : String),
      old ≠ new_ → (rename_orchard m old new_).lookup old = none) := by
  refine ⟨?_, ?_, ?_, ?_, ?_, ?_, ?_⟩
  · intro m name h
    simp [delete_orchard, h]
  · intro m old new_ h
    simp [rename_orchard, lookup_eq_none_of_not_mem m old h]
  · intro m name k h
    rw [delete_orchard]
    by_cases hmem : name ∈ m.map Prod.fst
    · rw [if_pos hmem, lookup_filter_ne m name k h]
    · rw [if_neg hmem]
  · intro m name
    rw [delete_orchard]
    by_cases hmem : name ∈ m.map Prod.fst
    · rw [if_pos hmem, lookup_filter_self]
    · rw [if_neg hmem, lookup_eq_none_of_not_mem m name hmem]
  · intro m old new_ k hko hkn
    rw [rename_orchard]
    cases hlk : m.lookup old with
    | some g => rw [lookup_dict_set_ne _ _ _ _ hkn, lookup_filter_ne m old k hko]
    | none => rfl
  · intro m old new_ g hg
    rw [rename_orchard, hg, lookup_dict_set_self]
  · intro m old new_ h
    rw [rename_orchard]
    cases hlk : m.lookup old with
    | some g =>
        rw [lookup_dict_set_ne _ _ _ _ h, lookup_filter_self]
    | none => exact hlk

/-- Witness for C10: instantiates the frame theorem on a concrete two-entry
mapping — deleting an absent name is the identity, deleting the first key
keeps the lookup of the second, and renaming the first key to a fresh key
moves its value there while keeping the other entry. -/
theorem orchard_ops_frame_witness :
    delete_orchard [(("a" : String), (1 : ℕ)), ("b", 2)] ("c")
        = [(("a" : String), (1 : ℕ)), ("b", 2)]
    ∧ (delete_orchard [(("a" : String), (1 : ℕ)), ("b", 2)] ("a")).lookup ("b")
        = ([(("a" : String), (1 : ℕ)), ("b", 2)].lookup ("b"))
    ∧ (rename_orchard [(("a" : String), (1 : ℕ)), ("b", 2)] ("a") ("c")).lookup ("b")
        = ([(("a" : String), (1 : ℕ)), ("b", 2)].lookup ("b"))
    ∧ (rename_orchard [(("a" : String), (1 : ℕ)), ("b", 2)] ("a") ("c")).lookup ("c")
        = some 1
    ∧ (rename_orchard [(("a" : String), (1 : ℕ)), ("b", 2)] ("a") ("c")).lookup ("a")
        = none := by
  refine ⟨?_, ?_, ?_, ?_, ?_⟩
  · exact orchard_ops_frame.1 _ ("c") (by decide)
  · exact orchard_ops_frame.2.2.1 _ ("a") ("b") (by decide)
  · exact orchard_ops_frame.2.2.2.2.1 _ ("a") ("c") ("b") (by decide) (by decide)
  · exact orchard_ops_frame.2.2.2.2.2.1 _ ("a") ("c") 1 (by decide)
  · exact orchard_ops_frame.2.2.2.2.2.2 _ ("a") ("c") (by decide)

/-! ### Series aggregation (`aggregate_daily_across_points`, data_sources.py
lines 90-104)

A daily frame is modelled as a list of column names, an index (timestamps as
naturals), and a cell valuation; a cell outside the frame or a NaN cell is
`none`. The code reindexes every input onto the sorted union of the indices,
concatenates them side by side, and takes, per column name, the row-wise
mean over the non-missing cells (`mean` with pandas default `skipna`);
the categorical `weathercode` column is excluded from the mean and
aggregated by the row-wise mode (sorted, first taken, i.e. the smallest
value among those of maximal multiplicity; missing when all inputs are
missing). -/

/-- Daily data frame model: column labels, time index and cell valuation. -/
structure DailyDF where
  cols : List String
  idx : List ℕ
  val : String → ℕ → Option ℚ

/-- The cell a frame contributes for column `c` at union timestamp `t`
after reindexing: present only when the frame has the column and the
timestamp, otherwise missing. -/
def reindexedVal (d : DailyDF) (c : String) (t : ℕ) : Option ℚ :=
  if c ∈ d.cols ∧ t ∈ d.idx then d.val c t else none

/-- Embeds `sorted(set().union(*indices))`: the sorted duplicate-free union
of the input indices. -/
def union_index (dfs : List DailyDF) : List ℕ :=
  List.insertionSort (fun a b : ℕ => a ≤ b) ((dfs.flatMap (fun d => d.idx)).dedup)

/-- The non-missing input cells for column `c` at timestamp `t`. -/
def values_at (dfs : List DailyDF) (c : String) (t : ℕ) : List ℚ :=
  (dfs.map (fun d => reindexedVal d c t)).filterMap id

/-- Embeds a pandas row-wise `mean` with the default `skipna`: the mean of
the non-missing cells, missing when every cell is missing. -/
def nanmean (l : List (Option ℚ)) : Option ℚ :=
  let vs := l.filterMap id
  if vs.length = 0 then none else some (vs.sum / (vs.length : ℚ))

/-- Embeds `DataFrame.mode(axis=1)` followed by `iloc[:, 0]` on one row:
missing cells are dropped; of the values of maximal multiplicity the
smallest is returned (pandas mode is sorted); missing when all cells are
missing. -/
def mode_smallest (vs : List ℚ) : Option ℚ :=
  ((vs.dedup).filter (fun v => decide (∀ w ∈ vs.dedup, vs.count w ≤ vs.count v))).min?

/-- Embeds `aggregate_daily_across_points`: for an empty input list an empty
frame; otherwise the frame indexed by the sorted union of the indices whose
numeric columns (all columns of the first input except `weathercode`) carry
the skipna mean of the inputs and whose `weathercode` column, when the first
input has one, carries the row mode. The numeric column labels come out of
the pandas groupby in sorted order. -/
def aggregate_daily_across_points (dfs : List DailyDF) : DailyDF :=
  match dfs with
  | [] => ⟨[], [], fun _ _ => none⟩
  | d0 :: rest =>
      let ncols := d0.cols.filter (fun c => c ≠ "weathercode")
      { cols := List.insertionSort (fun a b : String => a ≤ b) ncols
          ++ (if ("weathercode") ∈ d0.cols then ["weathercode"] else [])
        idx := union_index (d0 :: rest)
        val := fun c t =>
          if c = "weathercode" then
            if ("weathercode") ∈ d0.cols then
              mode_smallest (values_at (d0 :: rest) ("weathercode") t)
            else none
          else if c ∈ ncols then
            nanmean ((d0 :: rest).map (fun d => reindexedVal d c t))
          else none }

/-- The mode of a single defined cell is that cell. -/
theorem mode_smallest_singleton (v : ℚ) : mode_smallest [v] = some v := by
  simp [mode_smallest]

/-- The mode of a row with no defined cell is missing. -/
theorem mode_smallest_nil : mode_smallest [] = none := rfl

/-- Unfolding of the aggregate cell for a numeric column of the first input. -/
theorem aggregate_val_numeric (d0 : DailyDF) (rest : List DailyDF) (c : String)
    (t : ℕ) (hc : c ∈ d0.cols) (hwc : c ≠ "weathercode") :
    (aggregate_daily_across_points (d0 :: rest)).val c t
      = nanmean ((d0 :: rest).map (fun d => reindexedVal d c t)) := by
  have hmem : c ∈ d0.cols.filter (fun c => c ≠ "weathercode") :=
    List.mem_filter.2 ⟨hc, by simp [hwc]⟩
  simp only [aggregate_daily_across_points]
  rw [if_neg hwc, if_pos hmem]

/-- C4: for every nonempty list of input daily frames, every numeric column
of the first input and every timestamp, the aggregate cell is the arithmetic
mean of exactly the non-missing input cells at that timestamp; when exactly
one input has a value there, the aggregate is that value (no implicit
zero-fill); and when no input has a value there, the aggregate cell is
missing. -/
theorem aggregate_daily_mean_of_nonmissing (d0 : DailyDF) (rest : List DailyDF)
    (c : String) (t : ℕ) (hc : c ∈ d0.cols) (hwc : c ≠ "weathercode") :
    (values_at (d0 :: rest) c t ≠ [] →
      (aggregate_daily_across_points (d0 :: rest)).val c t
        = some ((values_at (d0 :: rest) c t).sum
            / ((values_at (d0 :: rest) c t).length : ℚ)))
    ∧ (∀ v : ℚ, values_at (d0 :: rest) c t = [v] →
      (aggregate_daily_across_points (d0 :: rest)).val c t = some v)
    ∧ (values_at (d0 :: rest) c t = [] →
      (aggregate_daily_across_points (d0 :: rest)).val c t = none) := by
  have hval := aggregate_val_numeric d0 rest c t hc hwc
  have hvs : ((d0 :: rest).map (fun d => reindexedVal d c t)).filterMap id
      = values_at (d0 :: rest) c t := rfl
  refine ⟨?_, ?_, ?_⟩
  · intro hne
    rw [hval, nanmean]
    simp only [hvs]
    rw [if_neg (by simpa [List.length_eq_zero] using hne)]
  · intro v hv
    rw [hval, nanmean]
    simp only [hvs, hv]
    norm_num
  · intro hv
    rw [hval, nanmean]
    simp only [hvs, hv]
    simp

/-- Concrete frame for the C4 witness: a precipitation column with the single
timestamp 0 carrying the value 7. -/
def precip_df0 : DailyDF :=
  ⟨["precipitation_sum"], [0],
    fun c t => if c = "precipitation_sum" ∧ t = 0 then some 7 else none⟩

/-- Concrete frame for the C4 witness: a precipitation column whose only
timestamp is 1, so it is missing at timestamp 0 after reindexing. -/
def precip_df1 : DailyDF :=
  ⟨["precipitation_sum"], [1], fun _ _ => none⟩

/-- Witness for C4: timestamp 0 exists in only one of three input frames,
and the aggregated mean at timestamp 0 equals that single value 7. -/
theorem aggregate_daily_mean_witness :
    ("precipitation_sum" ∈ precip_df0.cols)
    ∧ values_at [precip_df0, precip_df1, precip_df1] ("precipitation_sum") 0 = [7]
    ∧ (aggregate_daily_across_points [precip_df0, precip_df1, precip_df1]).val
        ("precipitation_sum") 0 = some 7 := by
  have h1 : ("precipitation_sum" : String) ∈ precip_df0.cols := by
    simp [precip_df0]
  have h2 : values_at [precip_df0, precip_df1, precip_df1] ("precipitation_sum") 0
      = [7] := by
    simp [values_at, reindexedVal, precip_df0, precip_df1]
  exact ⟨h1, h2,
    (aggregate_daily_mean_of_nonmissing precip_df0 [precip_df1, precip_df1]
      ("precipitation_sum") 0 h1 (by decide)).2.1 7 h2⟩

/-- C6: aggregating a one-element list of frames returns the same frame —
the index is unchanged (reindexing onto the sorted union of one
duplicate-free sorted index is a no-op), the column set is unchanged, and
every cell of the frame is unchanged, for the numeric columns and the
`weathercode` column alike. -/
theorem aggregate_daily_singleton_identity (s : DailyDF)
    (hs : List.Sorted (fun a b : ℕ => a ≤ b) s.idx) (hnd : s.idx.Nodup) :
    (aggregate_daily_across_points [s]).idx = s.idx
    ∧ (∀ c, c ∈ (aggregate_daily_across_points [s]).cols ↔ c ∈ s.cols)
    ∧ (∀ c ∈ s.cols, ∀ t ∈ s.idx,
        (aggregate_daily_across_points [s]).val c t = s.val c t) := by
  refine ⟨?_, ?_, ?_⟩
  · show union_index [s] = s.idx
    rw [union_index]
    have hflat : ([s].flatMap (fun d => d.idx)) = s.idx := by
      simp
    rw [hflat, List.dedup_eq_self.2 hnd, hs.insertionSort_eq]
  · intro c
    simp only [aggregate_daily_across_points]
    constructor
    · intro h
      rcases List.mem_append.1 h with h | h
      · have := (List.perm_insertionSort (fun a b : String => a ≤ b) _).mem_iff.1 h
        exact (List.mem_filter.1 this).1
      · by_cases hwc : ("weathercode") ∈ s.cols
        · rw [if_pos hwc] at h
          rcases List.mem_singleton.1 h with rfl
          exact hwc
        · rw [if_neg hwc] at h
          simp at h
    · intro h
      by_cases hwc : c = "weathercode"
      · subst hwc
        refine List.mem_append.2 (Or.inr ?_)
        rw [if_pos h]
        exact List.mem_singleton.2 rfl
      · refine List.mem_append.2 (Or.inl ?_)
        exact (List.perm_insertionSort (fun a b : String => a ≤ b) _).mem_iff.2
          (List.mem_filter.2 ⟨h, by simp [hwc]⟩)
  · intro c hc t ht
    by_cases hwc : c = "weathercode"
    · subst hwc
      simp only [aggregate_daily_across_points]
      rw [if_true, if_pos hc]
      have hcell : reindexedVal s ("weathercode") t = s.val ("weathercode") t :=
        if_pos ⟨hc, ht⟩
      cases hv : s.val ("weathercode") t with
      | none =>
          have : values_at [s] ("weathercode") t = [] := by
            simp [values_at, hcell, hv]
          rw [this, mode_smallest_nil]
      | some v =>
          have : values_at [s] ("weathercode") t = [v] := by
            simp [values_at, hcell, hv]
          rw [this, mode_smallest_singleton]
    · rw [aggregate_val_numeric s [] c t hc hwc]
      have hcell : reindexedVal s c t = s.val c t := if_pos ⟨hc, ht⟩
      cases hv : s.val c t with
      | none =>
          simp [nanmean, hcell, hv]
      | some v =>
          simp [nanmean, hcell, hv]

/-- Concrete frame for the C6 witness: a minimum-temperature column and a
weathercode column over the two timestamps 0 and 1. -/
def single_df : DailyDF :=
  ⟨["t_min_api", "weathercode"], [0, 1],
    fun c t =>
      if c = "t_min_api" ∧ t = 0 then some 3
      else if c = "t_min_api" ∧ t = 1 then some 4
      else if c = "weathercode" ∧ t = 0 then some 1
      else none⟩

/-- Witness for C6: the identity theorem applied to the concrete two-day
frame, whose index is sorted and duplicate-free. -/
theorem aggregate_daily_singleton_witness :
    List.Sorted (fun a b : ℕ => a ≤ b) single_df.idx
    ∧ single_df.idx.Nodup
    ∧ (aggregate_daily_across_points [single_df]).idx = single_df.idx
    ∧ (∀ c, c ∈ (aggregate_daily_across_points [single_df]).cols
        ↔ c ∈ single_df.cols)
    ∧ (∀ c ∈ single_df.cols, ∀ t ∈ single_df.idx,
        (aggregate_daily_across_points [single_df]).val c t
          = single_df.val c t) := by
  have h1 : List.Sorted (fun a b : ℕ => a ≤ b) single_df.idx := by
    simp [single_df, List.Sorted]
  have h2 : single_df.idx.Nodup := by simp [single_df]
  obtain ⟨a, b, c⟩ := aggregate_daily_singleton_identity single_df h1 h2
  exact ⟨h1, h2, a, b, c⟩

/-! ### Polygon sampling (`geoutils.py` lines 24-51)

A GeoJSON outer ring is a list of (lon, lat) coordinate pairs (the first
vertex typically repeated at the end); coordinates are modelled as
rationals. The inner `point_in_poly` ray-casting test, the bounding box,
the numpy `linspace` grids and the even-index downsampling step are embedded
as written; `int(np.ceil(np.sqrt(...)))` and the index truncation
`astype(int)` are exact for the integer ranges in use and are embedded as
exact integer ceiling square root and floor division. -/

/-- Embeds python `min` of a list (the empty case never arises in use). -/
def min_list (l : List ℚ) : ℚ :=
  match l with
  | [] => 0
  | x :: xs => xs.foldl min x

/-- Embeds python `max` of a list (the empty case never arises in use). -/
def max_list (l : List ℚ) : ℚ :=
  match l with
  | [] => 0
  | x :: xs => xs.foldl max x

/-- Embeds `np.mean` of a list. -/
def mean_list (l : List ℚ) : ℚ :=
  l.sum / (l.length : ℚ)

/-- The epsilon added to the denominator of the ray-crossing test. -/
def ray_eps : ℚ := 1 / 1000000000000

/-- Embeds the inner `point_in_poly` of `sample_points_in_polygon`: a
ray-casting crossing-parity loop over the edges of `poly`, a list of
(lat, lon) vertices; the test point is (`lat`, `lon`) and within the loop
`x`/`y` are its lon/lat. Division is guarded by `ray_eps`. -/
def point_in_poly (lat lon : ℚ) (poly : List (ℚ × ℚ)) : Bool :=
  let n := poly.length
  (List.range n).foldl
    (fun inside i =>
      let p1 := poly.getD i (0, 0)
      let p2 := poly.getD ((i + 1) % n) (0, 0)
      let x1 := p1.2
      let y1 := p1.1
      let x2 := p2.2
      let y2 := p2.1
      let cond := ((if y1 > lat then true else false)
            != (if y2 > lat then true else false))
          && (if lon < (x2 - x1) * (lat - y1) / (y2 - y1 + ray_eps) + x1
              then true else false)
      if cond then !inside else inside)
    false

/-- Embeds `polygon_bounds`: (min lat, min lon, max lat, max lon) of the
outer ring, whose entries are (lon, lat) pairs. -/
def polygon_bounds (coords : List (ℚ × ℚ)) : ℚ × ℚ × ℚ × ℚ :=
  (min_list (coords.map Prod.snd), min_list (coords.map Prod.fst),
   max_list (coords.map Prod.snd), max_list (coords.map Prod.fst))

/-- Embeds `poly = [(c[1], c[0]) for c in coords]`: the ring as (lat, lon)
pairs. -/
def mk_poly (coords : List (ℚ × ℚ)) : List (ℚ × ℚ) :=
  coords.map (fun c => (c.2, c.1))

/-- Embeds the degenerate fallback: the arithmetic mean of the ring vertex
latitudes and of the ring vertex longitudes (over the ring as given,
including a repeated closing vertex if present). -/
def vertex_mean (coords : List (ℚ × ℚ)) : ℚ × ℚ :=
  (mean_list ((mk_poly coords).map Prod.fst),
   mean_list ((mk_poly coords).map Prod.snd))

/-- Embeds `int(np.ceil(np.sqrt(m)))` for a natural `m`. -/
def ceil_sqrt (m : ℕ) : ℕ :=
  if Nat.sqrt m * Nat.sqrt m = m then Nat.sqrt m else Nat.sqrt m + 1

/-- Embeds the per-axis grid step count `max(2, n)` with
`n = int(np.ceil(np.sqrt(max_points)))` (geoutils.py lines 40-42). -/
def grid_steps (max_points : ℕ) : ℕ :=
  max 2 (ceil_sqrt max_points)

/-- Embeds `np.linspace a b k`: `k` evenly spaced values from `a` to `b`
inclusive (`[a]` for `k = 1`, empty for `k = 0`). -/
def linspace (a b : ℚ) (k : ℕ) : List ℚ :=
  if k = 1 then [a]
  else (List.range k).map (fun i : ℕ => a + (i : ℚ) * (b - a) / ((k : ℚ) - 1))

/-- The latitude grid laid across the bounding box by
`sample_points_in_polygon`. -/
def lat_grid_of (coords : List (ℚ × ℚ)) (max_points : ℕ) : List ℚ :=
  linspace (polygon_bounds coords).1 (polygon_bounds coords).2.2.1
    (grid_steps max_points)

/-- The longitude grid laid across the bounding box by
`sample_points_in_polygon`. -/
def lon_grid_of (coords : List (ℚ × ℚ)) (max_points : ℕ) : List ℚ :=
  linspace (polygon_bounds coords).2.1 (polygon_bounds coords).2.2.2
    (grid_steps max_points)

/-- The grid nodes passing the ray-casting test, in row-major order
(latitude outer loop, longitude inner loop). -/
def inside_grid_points (coords : List (ℚ × ℚ)) (max_points : ℕ) :
    List (ℚ × ℚ) :=
  (lat_grid_of coords max_points).flatMap
    (fun la => (lon_grid_of coords max_points).filterMap
      (fun lo => if point_in_poly la lo (mk_poly coords) then some (la, lo)
        else none))

/-- The candidate list after the degenerate fallback: the inside grid nodes,
or the single vertex-mean point when no grid node is inside. -/
def candidate_points (coords : List (ℚ × ℚ)) (max_points : ℕ) :
    List (ℚ × ℚ) :=
  let pts := inside_grid_points coords max_points
  if pts = [] then [vertex_mean coords] else pts

/-- Embeds `np.linspace(0, L-1, m).astype(int)`: the `m` evenly spaced
downsampling indices into a list of length `L`, truncated to integers. -/
def subsample_idx (L m : ℕ) : List ℕ :=
  if m = 1 then [0]
  else (List.range m).map (fun i => i * (L - 1) / (m - 1))

/-- Embeds `sample_points_in_polygon`: candidate grid nodes inside the ring
(with the vertex-mean fallback), downsampled to `max_points` by evenly
spaced indices when there are more. -/
def sample_points_in_polygon (coords : List (ℚ × ℚ)) (max_points : ℕ) :
    List (ℚ × ℚ) :=
  let pts := candidate_points coords max_points
  if max_points < pts.length then
    (subsample_idx pts.length max_points).map (fun i => pts.getD i (0, 0))
  else pts

/-- A linspace grid has exactly the requested number of nodes. -/
theorem linspace_length (a b : ℚ) (k : ℕ) : (linspace a b k).length = k := by
  rw [linspace]
  by_cases hk : k = 1
  · rw [if_pos hk, hk]
    rfl
  · rw [if_neg hk, List.length_map, List.length_range]

/-- The downsampling step always emits exactly `m` indices. -/
theorem subsample_idx_length (L m : ℕ) : (subsample_idx L m).length = m := by
  rw [subsample_idx]
  by_cases hm : m = 1
  · rw [if_pos hm, hm]
    rfl
  · rw [if_neg hm, List.length_map, List.length_range]

/-- Every downsampling index is a valid position of the candidate list. -/
theorem subsample_idx_lt (L m : ℕ) (hL : 1 ≤ L) (i : ℕ)
    (hi : i ∈ subsample_idx L m) : i < L := by
  rw [subsample_idx] at hi
  by_cases hm : m = 1
  · rw [if_pos hm] at hi
    rcases List.mem_singleton.1 hi with rfl
    exact hL
  · rw [if_neg hm] at hi
    rcases List.mem_map.1 hi with ⟨j, hj, rfl⟩
    have hj2 : j ≤ m - 1 := Nat.le_sub_one_of_lt (List.mem_range.1 hj)
    have h1 : j * (L - 1) ≤ (m - 1) * (L - 1) :=
      Nat.mul_le_mul_right (L - 1) hj2
    have h2 : j * (L - 1) / (m - 1) ≤ (m - 1) * (L - 1) / (m - 1) :=
      Nat.div_le_div_right h1
    have hm1 : 0 < m - 1 := by
      rcases Nat.eq_zero_or_pos m with h0 | h0
      · subst h0
        simp at hj
      · omega
    have h3 : (m - 1) * (L - 1) / (m - 1) = L - 1 :=
      Nat.mul_div_cancel_left (L - 1) hm1
    omega

/-- The candidate list is never empty. -/
theorem candidate_points_ne_nil (coords : List (ℚ × ℚ)) (max_points : ℕ) :
    candidate_points coords max_points ≠ [] := by
  rw [candidate_points]
  by_cases h : inside_grid_points coords max_points = []
  · rw [if_pos h]
    exact List.cons_ne_nil _ _
  · rw [if_neg h]
    exact h

/-- Every candidate point passes the ray-casting test or is the vertex-mean
fallback. -/
theorem candidate_points_mem (coords : List (ℚ × ℚ)) (max_points : ℕ)
    (p : ℚ × ℚ) (hp : p ∈ candidate_points coords max_points) :
    point_in_poly p.1 p.2 (mk_poly coords) = true ∨ p = vertex_mean coords := by
  rw [candidate_points] at hp
  by_cases h : inside_grid_points coords max_points = []
  · rw [if_pos h] at hp
    exact Or.inr (List.mem_singleton.1 hp)
  · rw [if_neg h] at hp
    left
    rw [inside_grid_points] at hp
    rcases List.mem_flatMap.1 hp with ⟨la, _, hla⟩
    rcases List.mem_filterMap.1 hla with ⟨lo, _, hlo⟩
    by_cases hin : point_in_poly la lo (mk_poly coords) = true
    · rw [if_pos hin] at hlo
      cases Option.some.inj hlo
      exact hin
    · rw [if_neg hin] at hlo
      cases hlo

/-- C3: for every ring and every `max_points ≥ 1`,
`sample_points_in_polygon` returns between 1 and `max_points` coordinates,
and every returned coordinate passes the ray-casting point-in-polygon test
or equals the vertex-mean fallback. -/
theorem sample_points_in_polygon_bounds (coords : List (ℚ × ℚ))
    (max_points : ℕ) (hm : 1 ≤ max_points) :
    1 ≤ (sample_points_in_polygon coords max_points).length
    ∧ (sample_points_in_polygon coords max_points).length ≤ max_points
    ∧ ∀ p ∈ sample_points_in_polygon coords max_points,
        point_in_poly p.1 p.2 (mk_poly coords) = true
          ∨ p = vertex_mean coords := by
  rw [sample_points_in_polygon]
  by_cases hlen : max_points < (candidate_points coords max_points).length
  · rw [if_pos hlen]
    refine ⟨?_, ?_, ?_⟩
    · rw [List.length_map, subsample_idx_length]
      exact hm
    · rw [List.length_map, subsample_idx_length]
    · intro p hp
      rcases List.mem_map.1 hp with ⟨i, hi, rfl⟩
      have hL : 1 ≤ (candidate_points coords max_points).length := by
        have := candidate_points_ne_nil coords max_points
        cases hcp : candidate_points coords max_points with
        | nil => exact absurd hcp this
        | cons a l => exact Nat.succ_le_succ (Nat.zero_le _)
      have hilt := subsample_idx_lt _ _ hL i hi
      rw [List.getD_eq_getElem _ _ hilt]
      exact candidate_points_mem coords max_points _ (List.getElem_mem hilt)
  · rw [if_neg hlen]
    refine ⟨?_, ?_, ?_⟩
    · have := candidate_points_ne_nil coords max_points
      cases hcp : candidate_points coords max_points with
      | nil => exact absurd hcp this
      | cons a l => exact Nat.succ_le_succ (Nat.zero_le _)
    · omega
    · exact candidate_points_mem coords max_points

/-- Concrete triangular ring for the sampling witnesses, as (lon, lat)
pairs with the closing vertex repeated. -/
def tri_ring : List (ℚ × ℚ) :=
  [(0, 0), (4, 0), (0, 4), (0, 0)]

/-- Witness for C3: the sampling bound theorem applied to the concrete
triangle with `max_points = 1`. -/
theorem sample_points_bounds_witness :
    1 ≤ 1
    ∧ (1 ≤ (sample_points_in_polygon tri_ring 1).length
       ∧ (sample_points_in_polygon tri_ring 1).length ≤ 1
       ∧ ∀ p ∈ sample_points_in_polygon tri_ring 1,
           point_in_poly p.1 p.2 (mk_poly tri_ring) = true
             ∨ p = vertex_mean tri_ring) :=
  ⟨le_refl 1, sample_points_in_polygon_bounds tri_ring 1 (le_refl 1)⟩

/-- C9 counterexample: for `max_points = 1` the latitude grid over the
concrete triangle has 2 nodes, not `ceil(sqrt(1)) = 1` — the code takes
`max(2, ceil(sqrt(max_points)))` steps per axis. -/
theorem grid_steps_counterexample :
    (lat_grid_of tri_ring 1).length = 2 ∧ ceil_sqrt 1 = 1 := by
  constructor
  · rw [lat_grid_of, linspace_length]
    rfl
  · rfl

/-- C9 amended: for every ring and every `max_points ≥ 2` the candidate
grid has exactly `ceil(sqrt(max_points))` steps per axis; for
`max_points = 1` it has `max(2, ceil(sqrt(1))) = 2` steps per axis. -/
theorem grid_steps_eq_ceil_sqrt (coords : List (ℚ × ℚ)) (max_points : ℕ)
    (hm : 2 ≤ max_points) :
    (lat_grid_of coords max_points).length = ceil_sqrt max_points
    ∧ (lon_grid_of coords max_points).length = ceil_sqrt max_points := by
  have hcs : 2 ≤ ceil_sqrt max_points := by
    rw [ceil_sqrt]
    have hpos : 0 < Nat.sqrt max_points := Nat.sqrt_pos.2 (by omega)
    by_cases hex : Nat.sqrt max_points * Nat.sqrt max_points = max_points
    · rw [if_pos hex]
      rcases Nat.lt_or_ge (Nat.sqrt max_points) 2 with hlt | hge
      · interval_cases h : Nat.sqrt max_points
        all_goals omega
      · exact hge
    · rw [if_neg hex]
      omega
  have hsteps : grid_steps max_points = ceil_sqrt max_points := by
    rw [grid_steps]
    omega
  constructor
  · rw [lat_grid_of, linspace_length, hsteps]
  · rw [lon_grid_of, linspace_length, hsteps]

/-- Witness for C9: the amended grid-step theorem applied to the concrete
triangle with `max_points = 5`, where `ceil(sqrt(5)) = 3`. -/
theorem grid_steps_eq_ceil_sqrt_witness :
    2 ≤ 5
    ∧ ((lat_grid_of tri_ring 5).length = ceil_sqrt 5
       ∧ (lon_grid_of tri_ring 5).length = ceil_sqrt 5) :=
  ⟨by omega, grid_steps_eq_ceil_sqrt tri_ring 5 (by omega)⟩

/-! ### Monthly rollup rainy/dry counting (`monthly_from_daily`,
data_sources.py lines 125-146)

The rollup groups the daily frame by a derived `month` column and then
writes `agg["rainy_days"] = df.groupby("month")[(pr > 1.0)].sum()` and
`agg["dry_days"] = df.groupby("month")[(pr < 1.0)].sum()` (lines 145-146).
Indexing a pandas `DataFrameGroupBy` is column selection, not row masking:
for a list-like key (list, Series, Index, ndarray) pandas
(`SelectionMixin.__getitem__`, pandas/core/base.py) requires
`len(columns.intersection(key)) == len(set(key))` — every distinct value of
the key must be an existing column label — and otherwise raises
`KeyError("Columns not found: ...")`; a scalar key must itself be a column
label. We model a label as either a string column name or a boolean (the
values of a boolean mask used as a key), and the membership test
`∀ v ∈ key, v ∈ cols` which is equivalent to the intersection-size
condition. The columns of the grouped frame here are the strings
`precipitation_sum` and `month`, so the boolean values of the masks
`(pr > 1.0)` / `(pr < 1.0)` are never labels and the selection raises for
every nonempty frame. -/

/-- A pandas column label in this frame: a string name, or a boolean when a
mask is (mis)used as a key. -/
abbrev PdLabel := String ⊕ Bool

/-- Embeds scalar `DataFrameGroupBy` column selection: the key must be an
existing column label. -/
def groupby_getitem_scalar (cols : List PdLabel) (k : PdLabel) :
    Except String Unit :=
  if cols.any (fun v => v = k) then Except.ok ()
  else Except.error ("KeyError: Column not found")

/-- Embeds list-like `DataFrameGroupBy` column selection: every value of
the key must be an existing column label, else `KeyError`. -/
def groupby_getitem_listlike (cols : List PdLabel) (keyVals : List PdLabel) :
    Except String Unit :=
  if keyVals.all (fun v => cols.any (fun w => w = v)) then Except.ok ()
  else Except.error ("KeyError: Columns not found")

/-- The boolean Series `(pr > 1.0)` over the daily precipitation column
(a NaN cell compares false). -/
def rainy_mask (rows : List (Day × Option ℚ)) : List Bool :=
  rows.map (fun r => match r.2 with
    | some v => if 1 < v then true else false
    | none => false)

/-- The boolean Series `(pr < 1.0)` over the daily precipitation column
(a NaN cell compares false). -/
def dry_mask (rows : List (Day × Option ℚ)) : List Bool :=
  rows.map (fun r => match r.2 with
    | some v => if v < 1 then true else false
    | none => false)

/-- The per-month precipitation totals of line 144
(`df.groupby("month")[pr.name].sum()`), with (year, month) as the group
key. -/
def month_precip_totals (rows : List (Day × Option ℚ)) :
    List ((ℕ × ℕ) × ℚ) :=
  ((rows.map (fun r => (r.1.year, r.1.month))).dedup).map
    (fun mo => (mo,
      ((rows.filter (fun r => (r.1.year, r.1.month) = mo)).filterMap
        (fun r => r.2)).sum))

/-- The column labels of the grouped frame for a daily frame whose only
data column is `precipitation_sum`, after the derived `month` column is
added (line 128). -/
def monthly_precip_cols : List PdLabel :=
  [Sum.inl ("precipitation_sum"), Sum.inl ("month")]

/-- Embeds `monthly_from_daily` (lines 125-146) on a daily frame whose only
data column is the precipitation column: the empty-frame early return, the
per-month precipitation totals of line 144, and the groupby column
selections of lines 145-146 whose keys are the boolean masks `(pr > 1.0)`
and `(pr < 1.0)`. The later lines are never reached for a nonempty frame
because the selection of line 145 raises. -/
def monthly_from_daily_precip (rows : List (Day × Option ℚ)) :
    Except String (List ((ℕ × ℕ) × ℚ)) :=
  if rows = [] then Except.ok []
  else
    match groupby_getitem_scalar monthly_precip_cols
        (Sum.inl ("precipitation_sum")) with
    | Except.error e => Except.error e
    | Except.ok _ =>
      match groupby_getitem_listlike monthly_precip_cols
          ((rainy_mask rows).map Sum.inr) with
      | Except.error e => Except.error e
      | Except.ok _ =>
        match groupby_getitem_listlike monthly_precip_cols
            ((dry_mask rows).map Sum.inr) with
        | Except.error e => Except.error e
        | Except.ok _ => Except.ok (month_precip_totals rows)

/-- Concrete 3-day June frame with precipitation 0.5, 2.0, 0.0 mm. -/
def june_example : List (Day × Option ℚ) :=
  [(⟨2024, 6, 1⟩, some (1 / 2)),
   (⟨2024, 6, 2⟩, some 2),
   (⟨2024, 6, 3⟩, some 0)]

/-- C2: on the 3-day month with precipitation [0.5, 2.0, 0.0] the monthly
rollup does not produce rainy/dry day counts at all — the boolean mask
`(pr > 1.0)` used as a groupby column selector raises `KeyError`, so
`monthly_from_daily` fails on every daily frame with a precipitation
column. -/
theorem monthly_rollup_rainy_dry_raises :
    monthly_from_daily_precip june_example
      = Except.error ("KeyError: Columns not found") := by
  have hne : june_example ≠ [] := by simp [june_example]
  have hsc : groupby_getitem_scalar monthly_precip_cols
      (Sum.inl ("precipitation_sum")) = Except.ok () := rfl
  have hmask : rainy_mask june_example = [false, true, false] := by
    norm_num [rainy_mask, june_example]
  have hll : groupby_getitem_listlike monthly_precip_cols
      ([false, true, false].map Sum.inr)
      = Except.error ("KeyError: Columns not found") := rfl
  rw [monthly_from_daily_precip, if_neg hne, hsc, hmask, hll]

end Weather
